import Mathlib

/-!
Verification of the RawMusic AI playlist generation pipeline.

This file shallowly embeds the AI-related logic of the repository:
the `AIRequest` mongoose model (prompt normalization, status updates with
timing, satisfaction rating, enum-constrained extracted moods/genres) and
the `generatePlaylist` controller (Gemini response cleaning/parsing, field
coercion, track search with popularity fallback, shuffle and truncation).

Conventions of the embedding:
- Times (`Date.now()` values, milliseconds) are `Nat` parameters passed to
  each operation; subtraction `now - start` is `Int` subtraction.
- Persisted documents are immutable records; a mongoose method that mutates
  and saves becomes a function returning the updated record (or `Except`
  when mongoose/express validation can reject it).
- Strings are processed as `List Char`; JavaScript `toLowerCase` is modelled
  with ASCII `Char.toLower` (characters outside the ASCII letters are not
  word characters, so the regex pipeline maps them to spaces either way).
- `JSON.parse` (a platform builtin) is modelled by a small structural JSON
  parser; numbers are kept as lexemes since no claim depends on numeric
  values.
- `Math.random`-driven shuffling is modelled by quantifying over an
  arbitrary permutation of the candidate pool.
-/

namespace RawMusic

/-! ## Character classes used by the normalization regexes

`normalizePrompt` (AIRequest model) runs, on the lowercased prompt,
`.replace(/[^\w\s]/g, ' ')`, then `.replace(/\s+/g, ' ')`, then `.trim()`.
`\w` is `[A-Za-z0-9_]`; `\s` is the JavaScript whitespace class. -/

/-- JavaScript regex `\w`: ASCII letters, digits and underscore. -/
def isWordChar (c : Char) : Bool :=
  (65 ≤ c.toNat && c.toNat ≤ 90) || (97 ≤ c.toNat && c.toNat ≤ 122) ||
  (48 ≤ c.toNat && c.toNat ≤ 57) || c.toNat = 95

/-- JavaScript regex `\s`: whitespace, line terminators and BOM. -/
def isSpaceChar (c : Char) : Bool :=
  (9 ≤ c.toNat && c.toNat ≤ 13) || c.toNat = 32 || c.toNat = 160 ||
  c.toNat = 5760 || (8192 ≤ c.toNat && c.toNat ≤ 8202) ||
  c.toNat = 8232 || c.toNat = 8233 || c.toNat = 8239 || c.toNat = 8287 ||
  c.toNat = 12288 || c.toNat = 65279

/-- A lowercase word character: what survives in a fully normalized prompt
besides single separating spaces. -/
def isLowerWordChar (c : Char) : Bool :=
  (97 ≤ c.toNat && c.toNat ≤ 122) || (48 ≤ c.toNat && c.toNat ≤ 57) ||
  c.toNat = 95

/-! ## The normalizePrompt pipeline (AIRequest model, part_000 lines 224-233) -/

/-- `.replace(/[^\w\s]/g, ' ')`: every character that is neither a word
character nor whitespace becomes a space. -/
def stripPunct (l : List Char) : List Char :=
  l.map (fun c => if isWordChar c || isSpaceChar c then c else ' ')

/-- State machine for `.replace(/\s+/g, ' ')`: a maximal run of whitespace
is emitted as a single `' '`.  The flag records whether the previous
character was whitespace (i.e. we are inside a run). -/
def collapseGo : Bool → List Char → List Char
  | _, [] => []
  | prevSpace, c :: rest =>
    if isSpaceChar c then
      if prevSpace then collapseGo true rest
      else ' ' :: collapseGo true rest
    else c :: collapseGo false rest

/-- `.replace(/\s+/g, ' ')` on a whole string. -/
def collapseSpaces (l : List Char) : List Char :=
  collapseGo false l

/-- `.trim()`: drop leading and trailing whitespace. -/
def trimChars (l : List Char) : List Char :=
  ((l.dropWhile isSpaceChar).reverse.dropWhile isSpaceChar).reverse

/-- The body of `normalizePrompt`: lowercase, strip punctuation to spaces,
collapse whitespace runs, trim. -/
def normalizeList (l : List Char) : List Char :=
  trimChars (collapseSpaces (stripPunct (l.map Char.toLower)))

/-- `AIRequest.methods.normalizePrompt` as a function on strings. -/
def normalizePrompt (s : String) : String :=
  ⟨normalizeList s.data⟩

/-! ## Canonical form of a normalized prompt -/

/-- Every character is a lowercase word character or a space. -/
def MemCanon (l : List Char) : Prop :=
  ∀ c ∈ l, isLowerWordChar c = true ∨ c = ' '

/-- No two adjacent characters are both spaces. -/
def ChainCanon (l : List Char) : Prop :=
  l.Chain' (fun a b => ¬(a = ' ' ∧ b = ' '))

/-- The string does not start with a space. -/
def HeadCanon (l : List Char) : Prop :=
  l.head? ≠ some ' '

/-- The string does not end with a space. -/
def LastCanon (l : List Char) : Prop :=
  l.getLast? ≠ some ' '

/-! ## The AIRequest document (part_000) -/

/-- The `status` enum of the aiRequestSchema. -/
inductive Status where
  | pending
  | processing
  | completed
  | failed
deriving DecidableEq, Repr

/-- The nested `satisfaction` subdocument. -/
structure Satisfaction where
  rating : Int
  feedback : String
  ratedAt : Nat
deriving DecidableEq, Repr

/-- An `AIRequest` document (the fields the claims are about).
`processingStartTime` is not a schema field; `updateStatus` sets it as a
plain property on the in-memory document, so it starts out absent. -/
structure AIRequest where
  userId : Nat
  prompt : String
  normalizedPrompt : String
  extractedMoods : List String
  extractedGenres : List String
  extractedKeywords : List String
  status : Status
  processingStartTime : Option Nat
  processingTime : Int
  errorMessage : String
  satisfaction : Option Satisfaction
  usageCount : Nat
  lastUsed : Nat
deriving DecidableEq, Repr

/-- `AIRequest.create` with the schema defaults (status `pending`,
`processingTime` 0, empty `errorMessage`, `usageCount` 1); creation saves
the new document, so the pre-save hook normalizes the prompt. -/
def createRequest (userId : Nat) (prompt : String) (now : Nat) : AIRequest where
  userId := userId
  prompt := prompt
  normalizedPrompt := normalizePrompt prompt
  extractedMoods := []
  extractedGenres := []
  extractedKeywords := []
  status := Status.pending
  processingStartTime := none
  processingTime := 0
  errorMessage := ""
  satisfaction := none
  usageCount := 1
  lastUsed := now

/-- The pre-save middleware: if the prompt was modified since the last
save, recompute `normalizedPrompt` (part_000 lines 236-241). -/
def preSaveHook (r : AIRequest) (promptModified : Bool) : AIRequest :=
  if promptModified then { r with normalizedPrompt := normalizePrompt r.prompt } else r

/-- `AIRequest.methods.updateStatus` (part_000 lines 244-263).  `now` is the
value of `Date.now()` at the call.  Note the method performs no validation
of the transition: it records a start time on `pending → processing`,
computes `processingTime` when moving to `completed`/`failed` if a truthy
start time exists, overwrites `status` unconditionally, and stores the
error message only when it is non-empty (truthy). -/
def updateStatus (r : AIRequest) (now : Nat) (newStatus : Status)
    (errorMessage : String) : AIRequest :=
  let r1 := if newStatus = Status.processing ∧ r.status = Status.pending then
      { r with processingStartTime := some now }
    else r
  let r2 := if newStatus = Status.completed ∨ newStatus = Status.failed then
      match r1.processingStartTime with
      | some start =>
        if start ≠ 0 then { r1 with processingTime := (now : Int) - start } else r1
      | none => r1
    else r1
  let r3 := { r2 with status := newStatus }
  if errorMessage ≠ "" then { r3 with errorMessage := errorMessage } else r3

/-- `AIRequest.methods.rateSatisfaction` (part_000 lines 214-221): the whole
`satisfaction` subdocument is replaced and `ratedAt` set to now. -/
def rateSatisfaction (r : AIRequest) (rating : Int) (feedback : String)
    (now : Nat) : AIRequest :=
  { r with satisfaction := some ⟨rating, feedback, now⟩ }

/-- The express-validator `ratingValidation` chain (aiController lines
386-395): rating must be an integer in [1,5], feedback at most 1000
characters. -/
def ratingValidationOk (rating : Int) (feedback : String) : Bool :=
  (1 ≤ rating && rating ≤ 5) && feedback.length ≤ 1000

/-- The `ratePlaylist` endpoint on an existing owned request: validation
rejects first, otherwise `rateSatisfaction` runs. -/
def ratePlaylist (r : AIRequest) (rating : Int) (feedback : String)
    (now : Nat) : Except String AIRequest :=
  if ratingValidationOk rating feedback then
    Except.ok (rateSatisfaction r rating feedback now)
  else Except.error "Validation failed"

/-! ## Mood/genre vocabularies and mongoose enum validation -/

/-- The `extractedMoods` enum (12 moods). -/
def moodVocab : List String :=
  ["happy", "sad", "energetic", "calm", "romantic", "angry", "nostalgic",
   "peaceful", "uplifting", "melancholic", "relaxing", "motivational"]

/-- The `extractedGenres` enum (14 genres). -/
def genreVocab : List String :=
  ["pop", "rock", "jazz", "classical", "electronic", "hip-hop", "country",
   "folk", "blues", "reggae", "metal", "indie", "ambient", "world"]

/-- JavaScript `toLowerCase`, ASCII model (the vocabularies are ASCII). -/
def lowerString (s : String) : String :=
  ⟨s.data.map Char.toLower⟩

/-- Saving `extractedMoods`/`extractedGenres`: mongoose first applies the
`lowercase: true` cast to each element, then validates each element against
the enum; an out-of-vocabulary element makes the save reject with a
ValidationError, so nothing is persisted. -/
def saveExtractedFields (moods genres : List String) :
    Except String (List String × List String) :=
  if (moods.map lowerString).all (fun m => moodVocab.contains m) &&
      (genres.map lowerString).all (fun g => genreVocab.contains g) then
    Except.ok (moods.map lowerString, genres.map lowerString)
  else Except.error "ValidationError"

/-! ## The track matcher (aiController generatePlaylist, lines 88-136) -/

/-- A Track document (the fields the matcher reads). -/
structure Track where
  id : Nat
  title : String
  artist : String
  genre : String
  mood : List String
  tags : List String
  popularity : Int
  playCount : Int
  isActive : Bool
deriving DecidableEq, Repr

/-- Case-insensitive containment: the model of testing the regex
`new RegExp(keyword, 'i')` against a string (keywords are treated as
literal text; none of the claims involve regex metacharacters). -/
def containsCI (hay needle : String) : Bool :=
  decide ((lowerString needle).data <:+: (lowerString hay).data)

/-- The three keyword clauses pushed into `$or`: tags, title or artist
match any of the keyword regexes. -/
def keywordClauses (keywords : List String) (t : Track) : Bool :=
  keywords.any (fun kw => t.tags.any (fun tg => containsCI tg kw)) ||
  keywords.any (fun kw => containsCI t.title kw) ||
  keywords.any (fun kw => containsCI t.artist kw)

/-- The disjunction built from the non-empty criterion lists. -/
def orClauses (moods genres keywords : List String) (t : Track) : Bool :=
  (!moods.isEmpty && t.mood.any (fun m => moods.contains m)) ||
  (!genres.isEmpty && genres.contains t.genre) ||
  (!keywords.isEmpty && keywordClauses keywords t)

/-- The final search filter: `isActive: true` always; the `$or` key is
deleted when all three criterion lists are empty. -/
def searchFilter (moods genres keywords : List String) (t : Track) : Bool :=
  t.isActive &&
    (if moods.isEmpty && genres.isEmpty && keywords.isEmpty then true
     else orClauses moods genres keywords t)

/-- `.sort({popularity: -1, playCount: -1})`: descending popularity, ties
by descending play count. -/
def popPlayLe (a b : Track) : Bool :=
  decide (b.popularity < a.popularity) ||
  (decide (a.popularity = b.popularity) && decide (b.playCount ≤ a.playCount))

/-- `.sort({popularity: -1})` used by the fallback query. -/
def popLe (a b : Track) : Bool :=
  decide (b.popularity ≤ a.popularity)

/-- The primary search: filter, sort by popularity/playCount, limit 50. -/
def primarySearch (catalog : List Track)
    (moods genres keywords : List String) : List Track :=
  ((catalog.filter (searchFilter moods genres keywords)).mergeSort popPlayLe).take 50

/-- The fallback query: the `n` most popular active tracks. -/
def fallbackTracks (catalog : List Track) (n : Nat) : List Track :=
  ((catalog.filter (fun t => t.isActive)).mergeSort popLe).take n

/-- The combined candidate pool: when the primary search found fewer than
10 tracks, append up to `20 - tracks.length` popular fallback tracks
(without any deduplication). -/
def candidatePool (catalog : List Track)
    (moods genres keywords : List String) : List Track :=
  if (primarySearch catalog moods genres keywords).length < 10 then
    primarySearch catalog moods genres keywords ++
      fallbackTracks catalog (20 - (primarySearch catalog moods genres keywords).length)
  else primarySearch catalog moods genres keywords

/-! ## Gemini response cleaning and parsing (aiController lines 65-79) -/

/-- The backquote character, `Char.ofNat 96`. -/
def backquote : Char := Char.ofNat 96

/-- The opening curly bracket character. -/
def lbrace : Char := Char.ofNat 123

/-- The closing curly bracket character. -/
def rbrace : Char := Char.ofNat 125

/-- Length of the fence-markup match of the regex
`/` ``` `json\n?|` ``` `\n?/` at the head of the list (0 when it does not
match): three backquotes, optionally followed by `json`, optionally
followed by a newline. -/
def fenceHeadLen (l : List Char) : Nat :=
  match l with
  | a :: b :: c :: rest =>
    if a = backquote ∧ b = backquote ∧ c = backquote then
      match rest with
      | 'j' :: 's' :: 'o' :: 'n' :: rest2 =>
        match rest2 with
        | '\n' :: _ => 8
        | _ => 7
      | '\n' :: _ => 4
      | _ => 3
    else 0
  | _ => 0

/-- Fueled scanner for the fence-removal regex replace; each step consumes
at least one character, so fuel equal to the input length always
suffices. -/
def removeFencesGo : Nat → List Char → List Char
  | 0, l => l
  | _ + 1, [] => []
  | f + 1, c :: rest =>
    if fenceHeadLen (c :: rest) = 0 then c :: removeFencesGo f rest
    else removeFencesGo f ((c :: rest).drop (fenceHeadLen (c :: rest)))

/-- `text.replace(/` ``` `json\n?|` ``` `\n?/g, '')`: delete every
occurrence of fence markup, scanning left to right. -/
def removeFences (l : List Char) : List Char :=
  removeFencesGo l.length l

/-- The cleaning step before `JSON.parse`: strip fence markup, trim. -/
def cleanGeminiText (s : String) : String :=
  ⟨trimChars (removeFences s.data)⟩

/-- JSON values as produced by `JSON.parse`.  Numbers are kept as their
lexemes: no claim depends on numeric values. -/
inductive Json where
  | null
  | bool (b : Bool)
  | num (lexeme : String)
  | str (s : String)
  | arr (elems : List Json)
  | obj (fields : List (String × Json))

/-- JSON insignificant whitespace. -/
def skipWs : List Char → List Char
  | [] => []
  | c :: rest =>
    if c = ' ' || c = '\t' || c = '\n' || c = '\r' then skipWs rest else c :: rest

/-- Parse the body of a JSON string after the opening quote, handling the
single-character escapes (the model omits `\uXXXX` escapes, which no claim
exercises). -/
def parseStringBody : Nat → List Char → List Char → Option (String × List Char)
  | 0, _, _ => none
  | _ + 1, [], _ => none
  | f + 1, c :: rest, acc =>
    if c = '"' then some (⟨acc.reverse⟩, rest)
    else if c = '\\' then
      match rest with
      | [] => none
      | e :: rest2 =>
        if e = '"' then parseStringBody f rest2 ('"' :: acc)
        else if e = '\\' then parseStringBody f rest2 ('\\' :: acc)
        else if e = '/' then parseStringBody f rest2 ('/' :: acc)
        else if e = 'n' then parseStringBody f rest2 ('\n' :: acc)
        else if e = 't' then parseStringBody f rest2 ('\t' :: acc)
        else if e = 'r' then parseStringBody f rest2 ('\r' :: acc)
        else if e = 'b' then parseStringBody f rest2 (Char.ofNat 8 :: acc)
        else if e = 'f' then parseStringBody f rest2 (Char.ofNat 12 :: acc)
        else none
    else parseStringBody f rest (c :: acc)

/-- Characters that may occur in a JSON number lexeme. -/
def isNumChar (c : Char) : Bool :=
  (48 ≤ c.toNat && c.toNat ≤ 57) || c = '-' || c = '+' || c = '.' ||
  c = 'e' || c = 'E'

/-- Take a number lexeme from the head of the input. -/
def parseNumber (l : List Char) : Option (String × List Char) :=
  let lex := l.takeWhile isNumChar
  if lex.isEmpty then none else some (⟨lex⟩, l.dropWhile isNumChar)

mutual

/-- Parse one JSON value (fueled; the fuel bounds recursion depth). -/
def parseValue : Nat → List Char → Option (Json × List Char)
  | 0, _ => none
  | f + 1, l =>
    match skipWs l with
    | [] => none
    | c :: rest =>
      if c = '"' then
        match parseStringBody (rest.length + 1) rest [] with
        | some (s, rem) => some (Json.str s, rem)
        | none => none
      else if c = 't' then
        match rest with
        | 'r' :: 'u' :: 'e' :: rem => some (Json.bool true, rem)
        | _ => none
      else if c = 'f' then
        match rest with
        | 'a' :: 'l' :: 's' :: 'e' :: rem => some (Json.bool false, rem)
        | _ => none
      else if c = 'n' then
        match rest with
        | 'u' :: 'l' :: 'l' :: rem => some (Json.null, rem)
        | _ => none
      else if c = '[' then
        match skipWs rest with
        | c2 :: rem2 =>
          if c2 = ']' then some (Json.arr [], rem2)
          else
            match parseElems f (c2 :: rem2) with
            | some (vs, rem3) => some (Json.arr vs, rem3)
            | none => none
        | [] => none
      else if c = lbrace then
        match skipWs rest with
        | c2 :: rem2 =>
          if c2 = rbrace then some (Json.obj [], rem2)
          else
            match parseFields f (c2 :: rem2) with
            | some (fs, rem3) => some (Json.obj fs, rem3)
            | none => none
        | [] => none
      else
        match parseNumber (c :: rest) with
        | some (s, rem) => some (Json.num s, rem)
        | none => none
termination_by structural f => f

/-- Parse a non-empty comma-separated element list up to `]`. -/
def parseElems : Nat → List Char → Option (List Json × List Char)
  | 0, _ => none
  | f + 1, l =>
    match parseValue f l with
    | none => none
    | some (v, rem) =>
      match skipWs rem with
      | c :: rem2 =>
        if c = ',' then
          match parseElems f rem2 with
          | some (vs, rem3) => some (v :: vs, rem3)
          | none => none
        else if c = ']' then some ([v], rem2)
        else none
      | [] => none
termination_by structural f => f

/-- Parse a non-empty `"key": value` field list up to the closing brace. -/
def parseFields : Nat → List Char → Option (List (String × Json) × List Char)
  | 0, _ => none
  | f + 1, l =>
    match skipWs l with
    | c :: rest =>
      if c = '"' then
        match parseStringBody (rest.length + 1) rest [] with
        | some (k, rem) =>
          match skipWs rem with
          | c2 :: rem2 =>
            if c2 = ':' then
              match parseValue f rem2 with
              | some (v, rem3) =>
                match skipWs rem3 with
                | c3 :: rem4 =>
                  if c3 = ',' then
                    match parseFields f rem4 with
                    | some (fs, rem5) => some ((k, v) :: fs, rem5)
                    | none => none
                  else if c3 = rbrace then some ([(k, v)], rem4)
                  else none
                | [] => none
              | none => none
            else none
          | [] => none
        | none => none
      else none
    | [] => none
termination_by structural f => f

end

/-- `JSON.parse`: parse one value and insist the rest is whitespace. -/
def parseJson (s : String) : Except String Json :=
  match parseValue (s.length + 2) s.data with
  | some (v, rem) =>
    if (skipWs rem).isEmpty then Except.ok v else Except.error "Unexpected token"
  | none => Except.error "Unexpected token"

/-- Lines 67-74 of the controller: clean the raw Gemini text and parse it;
a parse failure throws `Failed to parse AI response`. -/
def parseGeminiResponse (text : String) : Except String Json :=
  match parseJson (cleanGeminiText text) with
  | Except.ok v => Except.ok v
  | Except.error _ => Except.error "Failed to parse AI response"

/-- Property access `geminiData.<key>` on a parsed payload. -/
def getField (j : Json) (key : String) : Option Json :=
  match j with
  | Json.obj fields => fields.lookup key
  | _ => none

/-- `Array.isArray(geminiData.<key>) ? geminiData.<key> : []` (lines
77-79): a missing or non-array field is coerced to the empty array. -/
def coerceArr (j : Json) (key : String) : List Json :=
  match getField j key with
  | some (Json.arr a) => a
  | _ => []


/-! ## Concrete sample values used by witnesses -/

/-- A small concrete catalog. -/
def sampleCatalog : List Track :=
  [⟨1, "Sunset Drive", "Ann", "pop", ["happy"], ["summer"], 5, 9, true⟩,
   ⟨2, "Night Rain", "Bo", "ambient", ["calm"], [], 3, 4, true⟩,
   ⟨3, "Old Road", "Cy", "rock", [], [], 7, 1, false⟩]

/-- The raw fenced Gemini response from the spec example. -/
def sampleGeminiRaw : String :=
  "```json\n\x7b\"moods\":[\"happy\"],\"genres\":[],\"keywords\":[\"party\"]\x7d\n```"

/-- The JSON payload that example parses to. -/
def sampleGeminiJson : Json :=
  Json.obj [("moods", Json.arr [Json.str "happy"]), ("genres", Json.arr []),
    ("keywords", Json.arr [Json.str "party"])]

/-! ## Helper lemmas: the normalization pipeline -/

theorem toNat_ofNat_lower {m : Nat} (h1 : 97 ≤ m) (h2 : m ≤ 122) :
    (Char.ofNat m).toNat = m := by
  interval_cases m <;> decide

theorem toLower_eq_self_of_not_upper {c : Char}
    (h : ¬(65 ≤ c.toNat ∧ c.toNat ≤ 90)) : c.toLower = c := by
  unfold Char.toLower
  rw [if_neg]
  intro hc
  exact h ⟨hc.1, hc.2⟩

theorem toLower_not_upper (c : Char) :
    ¬(65 ≤ c.toLower.toNat ∧ c.toLower.toNat ≤ 90) := by
  unfold Char.toLower
  by_cases h : 65 ≤ c.toNat ∧ c.toNat ≤ 90
  · rw [if_pos ⟨h.1, h.2⟩]
    rw [toNat_ofNat_lower (by omega) (by omega)]
    omega
  · rw [if_neg fun hc => h ⟨hc.1, hc.2⟩]
    exact h

theorem lowerWord_toLower_self {c : Char} (h : isLowerWordChar c = true) :
    c.toLower = c := by
  simp only [isLowerWordChar, Bool.or_eq_true, Bool.and_eq_true,
    decide_eq_true_eq] at h
  apply toLower_eq_self_of_not_upper
  omega

theorem space_toLower_self {c : Char} (h : isSpaceChar c = true) :
    c.toLower = c := by
  simp only [isSpaceChar, Bool.or_eq_true, Bool.and_eq_true,
    decide_eq_true_eq] at h
  apply toLower_eq_self_of_not_upper
  omega

theorem lowerWord_of_word_not_upper {c : Char} (hw : isWordChar c = true)
    (h : ¬(65 ≤ c.toNat ∧ c.toNat ≤ 90)) : isLowerWordChar c = true := by
  simp only [isWordChar, Bool.or_eq_true, Bool.and_eq_true,
    decide_eq_true_eq] at hw
  simp only [isLowerWordChar, Bool.or_eq_true, Bool.and_eq_true,
    decide_eq_true_eq]
  omega

theorem not_space_of_lowerWord {c : Char} (h : isLowerWordChar c = true) :
    isSpaceChar c = false := by
  cases hs : isSpaceChar c
  · rfl
  · exfalso
    simp only [isLowerWordChar, Bool.or_eq_true, Bool.and_eq_true,
      decide_eq_true_eq] at h
    simp only [isSpaceChar, Bool.or_eq_true, Bool.and_eq_true,
      decide_eq_true_eq] at hs
    omega

theorem word_of_lowerWord {c : Char} (h : isLowerWordChar c = true) :
    isWordChar c = true := by
  simp only [isLowerWordChar, Bool.or_eq_true, Bool.and_eq_true,
    decide_eq_true_eq] at h
  simp only [isWordChar, Bool.or_eq_true, Bool.and_eq_true,
    decide_eq_true_eq]
  omega

theorem ne_space_of_lowerWord {c : Char} (h : isLowerWordChar c = true) :
    c ≠ ' ' := by
  intro hc
  subst hc
  simp only [isLowerWordChar] at h
  exact absurd h (by decide)

theorem mem_strip_lower (l : List Char) :
    ∀ c ∈ stripPunct (l.map Char.toLower),
      isLowerWordChar c = true ∨ isSpaceChar c = true := by
  intro c hc
  simp only [stripPunct, List.map_map, List.mem_map, Function.comp] at hc
  obtain ⟨a, _, rfl⟩ := hc
  by_cases hw : isWordChar a.toLower = true
  · rw [if_pos (by simp [hw])]
    exact Or.inl (lowerWord_of_word_not_upper hw (toLower_not_upper a))
  · by_cases hs : isSpaceChar a.toLower = true
    · rw [if_pos (by simp [hs])]
      exact Or.inr hs
    · rw [if_neg (by simp [hw, hs])]
      exact Or.inr (by decide)

theorem collapseGo_cons_space_true {c : Char} {rest : List Char}
    (h : isSpaceChar c = true) :
    collapseGo true (c :: rest) = collapseGo true rest := by
  simp [collapseGo, h]

theorem collapseGo_cons_space_false {c : Char} {rest : List Char}
    (h : isSpaceChar c = true) :
    collapseGo false (c :: rest) = ' ' :: collapseGo true rest := by
  simp [collapseGo, h]

theorem collapseGo_cons_nonspace {c : Char} {rest : List Char} (b : Bool)
    (h : isSpaceChar c = false) :
    collapseGo b (c :: rest) = c :: collapseGo false rest := by
  simp [collapseGo, h]

theorem collapseGo_props :
    ∀ (l : List Char),
      (∀ c ∈ l, isLowerWordChar c = true ∨ isSpaceChar c = true) → ∀ b,
      (∀ c ∈ collapseGo b l, isLowerWordChar c = true ∨ c = ' ')
      ∧ (collapseGo b l).Chain' (fun a b => ¬(a = ' ' ∧ b = ' '))
      ∧ (b = true → (collapseGo b l).head? ≠ some ' ') := by
  intro l
  induction l with
  | nil =>
    intro _ b
    exact ⟨by simp [collapseGo], by simp [collapseGo], by simp [collapseGo]⟩
  | cons c rest ih =>
    intro hclass b
    have hrest : ∀ x ∈ rest, isLowerWordChar x = true ∨ isSpaceChar x = true :=
      fun x hx => hclass x (List.mem_cons_of_mem c hx)
    by_cases sc : isSpaceChar c = true
    · cases b with
      | true =>
        rw [collapseGo_cons_space_true sc]
        exact ⟨(ih hrest true).1, (ih hrest true).2.1,
          fun _ => (ih hrest true).2.2 rfl⟩
      | false =>
        rw [collapseGo_cons_space_false sc]
        refine ⟨?_, ?_, by simp⟩
        · intro x hx
          rcases List.mem_cons.mp hx with h | h
          · exact Or.inr h
          · exact ((ih hrest true).1) x h
        · rw [List.chain'_cons']
          refine ⟨?_, (ih hrest true).2.1⟩
          intro y hy hcon
          have hhd : (collapseGo true rest).head? = some ' ' := by
            rw [← hcon.2]
            exact hy
          exact (ih hrest true).2.2 rfl hhd
    · have hlw : isLowerWordChar c = true := by
        rcases hclass c (List.mem_cons_self c rest) with h | h
        · exact h
        · exact absurd h (by simp [sc])
      have hcne : c ≠ ' ' := ne_space_of_lowerWord hlw
      rw [collapseGo_cons_nonspace b (by simp [sc])]
      refine ⟨?_, ?_, ?_⟩
      · intro x hx
        rcases List.mem_cons.mp hx with h | h
        · exact h ▸ Or.inl hlw
        · exact ((ih hrest false).1) x h
      · rw [List.chain'_cons']
        exact ⟨fun y _ hcon => hcne hcon.1, (ih hrest false).2.1⟩
      · intro _
        simp only [List.head?_cons, ne_eq, Option.some.injEq]
        exact hcne

theorem getLast?_dropWhile {α : Type} (p : α → Bool) :
    ∀ (w : List α), w.dropWhile p ≠ [] →
      (w.dropWhile p).getLast? = w.getLast? := by
  intro w
  induction w with
  | nil => intro h; exact absurd rfl h
  | cons a w2 ih =>
    intro h
    by_cases hp : p a = true
    · rw [List.dropWhile_cons_of_pos hp] at h ⊢
      have hw2 : w2 ≠ [] := by
        intro he
        rw [he] at h
        exact h rfl
      rcases w2 with _ | ⟨b, l⟩
      · exact absurd rfl hw2
      · rw [ih h, List.getLast?_cons_cons]
    · rw [List.dropWhile_cons_of_neg (by simp [hp])]

theorem head?_dropWhile_ne_space (l : List Char) :
    (l.dropWhile isSpaceChar).head? ≠ some ' ' := by
  intro h
  have := List.head?_dropWhile_not isSpaceChar l
  rw [h] at this
  simp only at this
  exact absurd this (by decide)

theorem chainCanon_reverse {l : List Char} (h : ChainCanon l) :
    ChainCanon l.reverse := by
  unfold ChainCanon at *
  rw [List.chain'_reverse]
  exact h.imp fun a b hab hc => hab ⟨hc.2, hc.1⟩

theorem chainCanon_suffix {l₁ l₂ : List Char} (h : ChainCanon l₂)
    (hs : l₁ <:+ l₂) : ChainCanon l₁ := by
  obtain ⟨pre, rfl⟩ := hs
  exact List.Chain'.right_of_append h

theorem normalizeList_canon (l : List Char) :
    MemCanon (normalizeList l) ∧ ChainCanon (normalizeList l)
    ∧ HeadCanon (normalizeList l) ∧ LastCanon (normalizeList l) := by
  have hclass := mem_strip_lower l
  set s2 := stripPunct (l.map Char.toLower) with hs2
  have hcol := collapseGo_props s2 hclass false
  set s3 := collapseGo false s2 with hs3
  have hmem3 : ∀ c ∈ s3, isLowerWordChar c = true ∨ c = ' ' := hcol.1
  have hchain3 : ChainCanon s3 := hcol.2.1
  have hnl : normalizeList l = trimChars s3 := rfl
  set y := s3.dropWhile isSpaceChar with hy
  set w := y.reverse with hw
  set z := w.dropWhile isSpaceChar with hz
  have ht : normalizeList l = z.reverse := rfl
  constructor
  · intro c hc
    rw [ht] at hc
    rw [List.mem_reverse] at hc
    have hcw : c ∈ w := (List.dropWhile_sublist isSpaceChar).subset hc
    rw [hw, List.mem_reverse] at hcw
    have hcy : c ∈ s3 := (List.dropWhile_sublist isSpaceChar).subset hcw
    exact hmem3 c hcy
  constructor
  · rw [ht]
    apply chainCanon_reverse
    apply chainCanon_suffix _ (List.dropWhile_suffix isSpaceChar)
    rw [hw]
    apply chainCanon_reverse
    exact chainCanon_suffix hchain3 (List.dropWhile_suffix isSpaceChar)
  constructor
  · rw [HeadCanon, ht, List.head?_reverse]
    by_cases hze : z = []
    · rw [hze]
      simp
    · rw [hz, getLast?_dropWhile isSpaceChar w (hz ▸ hze), hw,
        List.getLast?_reverse]
      exact head?_dropWhile_ne_space s3
  · rw [LastCanon, ht, List.getLast?_reverse]
    exact head?_dropWhile_ne_space w


theorem map_toLower_canon_id {l : List Char} (hm : MemCanon l) :
    l.map Char.toLower = l := by
  have h1 : l.map Char.toLower = l.map id := by
    apply List.map_congr_left
    intro a ha
    simp only [id_eq]
    rcases hm a ha with h | h
    · exact lowerWord_toLower_self h
    · rw [h]
      exact space_toLower_self (by decide)
  rw [h1, List.map_id]

theorem stripPunct_canon_id {l : List Char} (hm : MemCanon l) :
    stripPunct l = l := by
  unfold stripPunct
  have h1 : l.map (fun c => if isWordChar c || isSpaceChar c then c else ' ')
      = l.map id := by
    apply List.map_congr_left
    intro a ha
    simp only [id_eq]
    rcases hm a ha with h | h
    · rw [if_pos (by simp [word_of_lowerWord h])]
    · rw [h, if_pos (by decide)]
  rw [h1, List.map_id]

theorem collapseGo_canon_id :
    ∀ (l : List Char), MemCanon l → ChainCanon l → ∀ b,
      (b = true → l.head? ≠ some ' ') → collapseGo b l = l := by
  intro l
  induction l with
  | nil => intro _ _ b _; rfl
  | cons c rest ih =>
    intro hm hc b hb
    have hmrest : MemCanon rest := fun x hx => hm x (List.mem_cons_of_mem c hx)
    have hcrest : ChainCanon rest := hc.tail
    by_cases hsp : c = ' '
    · have hbf : b = false := by
        cases b with
        | true => exact absurd (by rw [hsp, List.head?_cons]) (hb rfl)
        | false => rfl
      subst hbf hsp
      rw [collapseGo_cons_space_false (by decide)]
      congr 1
      apply ih hmrest hcrest true
      intro _
      intro hh
      rcases rest with _ | ⟨d, l2⟩
      · simp at hh
      · rw [List.head?_cons] at hh
        have hd : d = ' ' := by injection hh
        have := (List.chain'_cons'.mp hc).1 d rfl
        exact this ⟨rfl, hd⟩
    · have hlw : isLowerWordChar c = true := by
        rcases hm c (List.mem_cons_self c rest) with h | h
        · exact h
        · exact absurd h hsp
      rw [collapseGo_cons_nonspace b (not_space_of_lowerWord hlw)]
      congr 1
      exact ih hmrest hcrest false (by simp)

theorem dropWhile_canon_id {l : List Char} (hm : MemCanon l)
    (hh : l.head? ≠ some ' ') : l.dropWhile isSpaceChar = l := by
  rcases l with _ | ⟨c, rest⟩
  · rfl
  · have hcs : c ≠ ' ' := by
      intro he
      exact hh (by rw [he, List.head?_cons])
    have hlw : isLowerWordChar c = true := by
      rcases hm c (List.mem_cons_self c rest) with h | h
      · exact h
      · exact absurd h hcs
    exact List.dropWhile_cons_of_neg (by simp [not_space_of_lowerWord hlw])

theorem trimChars_canon_id {l : List Char} (hm : MemCanon l)
    (hh : HeadCanon l) (hl : LastCanon l) : trimChars l = l := by
  unfold trimChars
  rw [dropWhile_canon_id hm hh]
  rw [dropWhile_canon_id _ _, List.reverse_reverse]
  · intro c hc
    exact hm c (List.mem_reverse.mp hc)
  · rw [List.head?_reverse]
    exact hl

theorem normalizeList_canon_id {l : List Char} (hm : MemCanon l)
    (hc : ChainCanon l) (hh : HeadCanon l) (hl : LastCanon l) :
    normalizeList l = l := by
  unfold normalizeList
  rw [map_toLower_canon_id hm, stripPunct_canon_id hm]
  rw [show collapseSpaces l = l from
    collapseGo_canon_id l hm hc false (by simp)]
  exact trimChars_canon_id hm hh hl

theorem normalizeList_idem (l : List Char) :
    normalizeList (normalizeList l) = normalizeList l := by
  obtain ⟨hm, hc, hh, hl⟩ := normalizeList_canon l
  exact normalizeList_canon_id hm hc hh hl


/-! ## Helper lemmas: model operations -/

theorem updateStatus_status (r : AIRequest) (now : Nat) (s : Status)
    (msg : String) : (updateStatus r now s msg).status = s := by
  simp only [updateStatus]
  split
  · rfl
  · rfl

theorem updateStatus_errorMessage_of_ne (r : AIRequest) (now : Nat)
    (s : Status) (msg : String) (h : msg ≠ "") :
    (updateStatus r now s msg).errorMessage = msg := by
  simp only [updateStatus]
  rw [if_pos h]

/-! ## Helper lemmas: track matcher -/

theorem searchFilter_active {moods genres keywords : List String} {t : Track}
    (h : searchFilter moods genres keywords t = true) : t.isActive = true := by
  unfold searchFilter at h
  rw [Bool.and_eq_true] at h
  exact h.1

theorem mem_primarySearch {catalog : List Track}
    {moods genres keywords : List String} {t : Track}
    (h : t ∈ primarySearch catalog moods genres keywords) :
    t ∈ catalog ∧ t.isActive = true := by
  unfold primarySearch at h
  have h2 := List.take_subset 50 _ h
  rw [List.mem_mergeSort, List.mem_filter] at h2
  exact ⟨h2.1, searchFilter_active h2.2⟩

theorem mem_fallbackTracks {catalog : List Track} {n : Nat} {t : Track}
    (h : t ∈ fallbackTracks catalog n) : t ∈ catalog ∧ t.isActive = true := by
  unfold fallbackTracks at h
  have h2 := List.take_subset n _ h
  rw [List.mem_mergeSort, List.mem_filter] at h2
  exact h2

theorem mem_candidatePool {catalog : List Track}
    {moods genres keywords : List String} {t : Track}
    (h : t ∈ candidatePool catalog moods genres keywords) :
    t ∈ catalog ∧ t.isActive = true := by
  unfold candidatePool at h
  split at h
  · rcases List.mem_append.mp h with h2 | h2
    · exact mem_primarySearch h2
    · exact mem_fallbackTracks h2
  · exact mem_primarySearch h

/-! ## Claim C1 -/

/-- C1 as stated is false on the code: `updateStatus` moves a `completed`
request back to `processing` without any error; no `InvalidTransition`
check exists in the method. -/
theorem C1_counterexample :
    (updateStatus (createRequest 1 "hi" 0) 5 Status.completed "").status
      = Status.completed ∧
    (updateStatus (updateStatus (createRequest 1 "hi" 0) 5 Status.completed "")
        6 Status.processing "").status = Status.processing :=
  ⟨rfl, rfl⟩

/-- C1 (amended): `updateStatus` performs no transition validation at all:
for every request, including one whose status is `completed` or `failed`,
and every target state, the call succeeds and overwrites the status with
the target state. -/
theorem C1_no_transition_guard (r : AIRequest) (now : Nat) (s : Status)
    (msg : String) : (updateStatus r now s msg).status = s :=
  updateStatus_status r now s msg

/-! ## Claim C2 -/

/-- C2 as stated is false when the external error carries an empty
message: the record ends `failed` but `errorMessage` stays empty, because
the truthiness check `if (errorMessage)` skips the assignment. -/
theorem C2_counterexample :
    (updateStatus (updateStatus (createRequest 1 "hi" 0) 5 Status.processing "")
        9 Status.failed "").status = Status.failed ∧
    (updateStatus (updateStatus (createRequest 1 "hi" 0) 5 Status.processing "")
        9 Status.failed "").errorMessage = "" :=
  ⟨rfl, rfl⟩

/-- C2 (amended): the catch handler always lands the record in `failed`
(never leaves it `processing`); the failure reason equals the error
message whenever that message is non-empty, and unparseable generative
output always produces the fixed non-empty message
`Failed to parse AI response`. -/
theorem C2_failure_recovery (r : AIRequest) (now : Nat) (msg : String) :
    (updateStatus r now Status.failed msg).status = Status.failed ∧
    (msg ≠ "" → (updateStatus r now Status.failed msg).errorMessage = msg) ∧
    parseGeminiResponse "not json" = Except.error "Failed to parse AI response" :=
  ⟨updateStatus_status r now Status.failed msg,
   fun h => updateStatus_errorMessage_of_ne r now Status.failed msg h, rfl⟩

theorem C2_witness :
    (updateStatus (createRequest 1 "x" 0) 3 Status.failed "boom").status
      = Status.failed ∧
    (updateStatus (createRequest 1 "x" 0) 3 Status.failed "boom").errorMessage
      = "boom" :=
  ⟨(C2_failure_recovery (createRequest 1 "x" 0) 3 "boom").1,
   (C2_failure_recovery (createRequest 1 "x" 0) 3 "boom").2.1 (by decide)⟩

/-! ## Claim C3 -/

/-- C3 as stated is false: when both `Date.now()` readings fall in the
same millisecond, `processingTime` is 0, not strictly positive. -/
theorem C3_counterexample :
    (updateStatus (updateStatus (createRequest 1 "chill" 0) 1000 Status.processing "")
        1000 Status.completed "").processingTime = 0 :=
  rfl

/-- C3 (amended): create, transition to processing at time `t1 > 0`, then
transition to completed at time `t2` yields `processingTime = t2 - t1`,
which is strictly positive exactly when the completion reading is
strictly later than the processing reading. -/
theorem C3_elapsed (userId : Nat) (prompt : String) (t0 t1 t2 : Nat)
    (h1 : 0 < t1) :
    (updateStatus (updateStatus (createRequest userId prompt t0) t1 Status.processing "")
        t2 Status.completed "").processingTime = (t2 : Int) - (t1 : Int) ∧
    (t1 < t2 →
      0 < (updateStatus (updateStatus (createRequest userId prompt t0) t1 Status.processing "")
        t2 Status.completed "").processingTime) := by
  have ht : ¬(t1 = 0) := by omega
  have hstep : updateStatus (createRequest userId prompt t0) t1 Status.processing ""
      = { createRequest userId prompt t0 with
            processingStartTime := some t1, status := Status.processing } := by
    unfold updateStatus
    simp [createRequest]
  rw [hstep]
  unfold updateStatus
  simp only [createRequest]
  simp [ht]

theorem C3_witness :
    (updateStatus (updateStatus (createRequest 1 "p" 0) 1000 Status.processing "")
        1001 Status.completed "").processingTime = (1001 : Int) - (1000 : Int) ∧
    0 < (updateStatus (updateStatus (createRequest 1 "p" 0) 1000 Status.processing "")
        1001 Status.completed "").processingTime :=
  ⟨(C3_elapsed 1 "p" 0 1000 1001 (by decide)).1,
   (C3_elapsed 1 "p" 0 1000 1001 (by decide)).2 (by decide)⟩

/-! ## Claim C4 -/

/-- C4: prompt normalization is idempotent for every string, and the
concrete example from the spec normalizes as stated. -/
theorem C4_normalize_idempotent :
    (∀ s : String, normalizePrompt (normalizePrompt s) = normalizePrompt s) ∧
    normalizePrompt "Chill  Vibes!! " = "chill vibes" := by
  constructor
  · intro s
    exact congrArg String.mk (normalizeList_idem s.data)
  · rfl

/-! ## Claim C5 -/

/-- C5: a rating outside [1,5] (e.g. 6) is rejected by the validation
chain before anything is stored, and rating 5 then rating 3 leaves the
single `satisfaction` subdocument holding rating 3 with `ratedAt` equal to
the second call time (prior feedback fully overwritten). -/
theorem C5_feedback :
    (∀ (r : AIRequest) (fb : String) (now : Nat),
      ratePlaylist r 6 fb now = Except.error "Validation failed") ∧
    (∀ (r : AIRequest) (t1 t2 : Nat),
      (ratePlaylist r 5 "ok" t1).bind (fun r1 => ratePlaylist r1 3 "better" t2)
        = Except.ok (rateSatisfaction (rateSatisfaction r 5 "ok" t1) 3 "better" t2) ∧
      (rateSatisfaction (rateSatisfaction r 5 "ok" t1) 3 "better" t2).satisfaction
        = some ⟨3, "better", t2⟩) :=
  ⟨fun _ _ _ => rfl, fun _ _ _ => ⟨rfl, rfl⟩⟩

/-! ## Claim C6 -/

/-- C6: whenever a save of the extracted fields succeeds, every stored
mood is in the 12-mood vocabulary and every stored genre is in the
14-genre vocabulary; an out-of-vocabulary value makes the save reject
with a ValidationError, so it is never stored. -/
theorem C6_vocab_invariant (moods genres ms gs : List String)
    (h : saveExtractedFields moods genres = Except.ok (ms, gs)) :
    (∀ m ∈ ms, m ∈ moodVocab) ∧ (∀ g ∈ gs, g ∈ genreVocab) := by
  unfold saveExtractedFields at h
  by_cases hc : ((moods.map lowerString).all (fun m => moodVocab.contains m) &&
      (genres.map lowerString).all (fun g => genreVocab.contains g)) = true
  · rw [if_pos hc] at h
    injection h with h2
    rw [Bool.and_eq_true] at hc
    have hms : moods.map lowerString = ms := congrArg Prod.fst h2
    have hgs : genres.map lowerString = gs := congrArg Prod.snd h2
    constructor
    · intro m hm
      rw [← hms] at hm
      have := List.all_eq_true.mp hc.1 m hm
      simpa [List.contains] using this
    · intro g hg
      rw [← hgs] at hg
      have := List.all_eq_true.mp hc.2 g hg
      simpa [List.contains] using this
  · rw [if_neg hc] at h
    cases h

theorem C6_witness :
    (∀ m ∈ (["happy"] : List String), m ∈ moodVocab) ∧
    (∀ g ∈ (["rock"] : List String), g ∈ genreVocab) :=
  C6_vocab_invariant ["Happy"] ["ROCK"] ["happy"] ["rock"] (by rfl)

/-! ## Claim C7 -/

/-- C7: with empty moods/genres/keywords the search filter degenerates to
`isActive` alone (no disjunctive filter), the primary search is exactly
the popularity-ordered active tracks capped at 50, and any shuffled
selection returns at most 20 tracks, all of them active.  `match` is a
total function in the embedding: it never fails. -/
theorem C7_empty_criteria (catalog : List Track) (shuffled : List Track)
    (hperm : shuffled.Perm (candidatePool catalog [] [] [])) :
    (∀ t, searchFilter [] [] [] t = t.isActive) ∧
    primarySearch catalog [] [] [] =
      ((catalog.filter (fun t => t.isActive)).mergeSort popPlayLe).take 50 ∧
    (shuffled.take 20).length ≤ 20 ∧
    (∀ t ∈ shuffled.take 20, t.isActive = true) := by
  refine ⟨?_, ?_, ?_, ?_⟩
  · intro t
    simp [searchFilter]
  · unfold primarySearch
    have he : catalog.filter (searchFilter [] [] [])
        = catalog.filter (fun t => t.isActive) :=
      List.filter_congr (fun t _ => by simp [searchFilter])
    rw [he]
  · exact List.length_take_le 20 shuffled
  · intro t ht
    exact (mem_candidatePool (hperm.mem_iff.mp (List.take_subset 20 shuffled ht))).2

theorem C7_witness :
    (∀ t, searchFilter [] [] [] t = t.isActive) ∧
    primarySearch sampleCatalog [] [] [] =
      ((sampleCatalog.filter (fun t => t.isActive)).mergeSort popPlayLe).take 50 ∧
    ((candidatePool sampleCatalog [] [] []).take 20).length ≤ 20 ∧
    (∀ t ∈ (candidatePool sampleCatalog [] [] []).take 20, t.isActive = true) :=
  C7_empty_criteria sampleCatalog (candidatePool sampleCatalog [] [] [])
    (List.Perm.refl (candidatePool sampleCatalog [] [] []))

/-! ## Claim C8 -/

/-- C8: for every catalog and criteria, the returned selection has at most
20 (= targetCount) tracks, each drawn from the catalog's active candidates
(never fabricated), and when the primary search yields fewer than 10
candidates the pool is exactly the primary results followed by the
most-popular active candidates up to a combined 20, without
deduplication. -/
theorem C8_match_bounds (catalog : List Track)
    (moods genres keywords : List String) (shuffled : List Track)
    (hperm : shuffled.Perm (candidatePool catalog moods genres keywords)) :
    (shuffled.take 20).length ≤ 20 ∧
    (∀ t ∈ shuffled.take 20, t ∈ catalog ∧ t.isActive = true) ∧
    ((primarySearch catalog moods genres keywords).length < 10 →
      candidatePool catalog moods genres keywords =
        primarySearch catalog moods genres keywords ++
          fallbackTracks catalog
            (20 - (primarySearch catalog moods genres keywords).length)) := by
  refine ⟨List.length_take_le 20 shuffled, ?_, ?_⟩
  · intro t ht
    exact mem_candidatePool (hperm.mem_iff.mp (List.take_subset 20 shuffled ht))
  · intro hlt
    unfold candidatePool
    rw [if_pos hlt]

theorem C8_witness :
    ((candidatePool sampleCatalog ["happy"] [] []).take 20).length ≤ 20 ∧
    (∀ t ∈ (candidatePool sampleCatalog ["happy"] [] []).take 20,
      t ∈ sampleCatalog ∧ t.isActive = true) ∧
    ((primarySearch sampleCatalog ["happy"] [] []).length < 10 →
      candidatePool sampleCatalog ["happy"] [] [] =
        primarySearch sampleCatalog ["happy"] [] [] ++
          fallbackTracks sampleCatalog
            (20 - (primarySearch sampleCatalog ["happy"] [] []).length)) :=
  C8_match_bounds sampleCatalog ["happy"] [] []
    (candidatePool sampleCatalog ["happy"] [] [])
    (List.Perm.refl (candidatePool sampleCatalog ["happy"] [] []))

/-! ## Claim C9 -/

/-- C9: the fenced example response is cleaned and parsed to the expected
payload whose moods/genres/keywords coerce to `["happy"]`, `[]`,
`["party"]`, and for every parsed payload a missing or non-array field is
coerced to the empty array. -/
theorem C9_parse_and_coerce :
    parseGeminiResponse sampleGeminiRaw = Except.ok sampleGeminiJson ∧
    coerceArr sampleGeminiJson "moods" = [Json.str "happy"] ∧
    coerceArr sampleGeminiJson "genres" = [] ∧
    coerceArr sampleGeminiJson "keywords" = [Json.str "party"] ∧
    (∀ (j : Json) (key : String),
      (∀ a, getField j key ≠ some (Json.arr a)) → coerceArr j key = []) := by
  refine ⟨rfl, rfl, rfl, rfl, ?_⟩
  intro j key h
  unfold coerceArr
  cases hf : getField j key with
  | none => rfl
  | some v =>
    cases v with
    | arr a => exact absurd hf (h a)
    | null => rfl
    | bool b => rfl
    | num s => rfl
    | str s => rfl
    | obj f => rfl

theorem C9_witness : coerceArr (Json.str "x") "moods" = [] :=
  C9_parse_and_coerce.2.2.2.2 (Json.str "x") "moods"
    (fun _a h => Option.noConfusion h)

/-! ## Claim C10 -/

/-- C10: after any save that modifies the prompt, the stored
`normalizedPrompt` is canonical: only lowercase word characters and single
separating spaces, with no leading or trailing whitespace. -/
theorem C10_normalized_canonical (r : AIRequest) :
    MemCanon ((preSaveHook r true).normalizedPrompt).data ∧
    ChainCanon ((preSaveHook r true).normalizedPrompt).data ∧
    HeadCanon ((preSaveHook r true).normalizedPrompt).data ∧
    LastCanon ((preSaveHook r true).normalizedPrompt).data :=
  normalizeList_canon r.prompt.data

end RawMusic
